import Mathlib

/-!
Verification development for the IVR Discovery / Graph-Traversal Engine of the
cx-navigator repository.  The definitions below are a shallow embedding of the
final engine variant in src/convex/discoveryActions.ts together with the
persistence mutations in src/convex/discovery.ts.

Modelling conventions:
* JS strings are modelled as Lean String / List Char (the claim-relevant data is
  ASCII, where charCodeAt agrees with Char.toNat).
* JS 32-bit signed truncation (x | 0, x & x, << on int32) is modelled by toInt32
  over Int.
* The regular expressions of extractMenuOptions and parseTranscriptFlow are
  embedded as backtracking matchers with JS semantics (greedy and lazy
  quantifiers over single-character classes, case-insensitive literals,
  matchAll restarting after the end of each match).
* Convex db records become Lean structures; fields whose values are floats or
  random (confidence, audioUrl, durationMs) are outside the model and omitted.
* The runDiscovery action body is embedded as a fuel-indexed loop over an
  explicit stack, parameterised by a telephony oracle mapping a replayed DTMF
  path to the transcript heard there (or a transport error); the simulated
  session variant is itself embedded and provides one such oracle.
-/

set_option maxRecDepth 100000

deriving instance DecidableEq for Except

namespace CxNavigator

/-! ## Basic character and string helpers -/

/-- ASCII lower-case letter or digit, the class kept by normalizeText. -/
def isAlnumLower (c : Char) : Bool :=
  ('a' ≤ c && c ≤ 'z') || ('0' ≤ c && c ≤ '9')

/-- The character class \d of JS regexes. -/
def isDigitChar (c : Char) : Bool :=
  '0' ≤ c && c ≤ '9'

/-- The character class \s of JS regexes (ASCII part plus NBSP). -/
def isWsChar (c : Char) : Bool :=
  c.toNat = 32 || c.toNat = 9 || c.toNat = 10 || c.toNat = 13 ||
  c.toNat = 11 || c.toNat = 12 || c.toNat = 160

/-- The character class of a menu label, [^.,;] in the source regexes. -/
def isMenuLabelChar (c : Char) : Bool :=
  !(c = '.' || c = ',' || c = ';')

/-- Case-insensitive character comparison, for the /i regex flag. -/
def charLowerEq (a b : Char) : Bool :=
  a.toLower = b.toLower

/-- JS String.prototype.trim over char lists (whitespace from both ends). -/
def listTrim (l : List Char) : List Char :=
  ((l.dropWhile isWsChar).reverse.dropWhile isWsChar).reverse

def strTrim (s : String) : String :=
  String.mk (listTrim s.data)

/-- JS String.prototype.toLowerCase, mapped over the characters. -/
def strLower (s : String) : String :=
  String.mk (s.data.map Char.toLower)

/-- Substring test over char lists, JS String.prototype.includes. -/
def listStartsWith : List Char → List Char → Bool
  | [], _ => true
  | _ :: _, [] => false
  | c :: w, x :: s => c = x && listStartsWith w s

def listHasSub (hay needle : List Char) : Bool :=
  match hay with
  | [] => needle.isEmpty
  | _ :: t => listStartsWith needle hay || listHasSub t needle

/-- JS String.prototype.includes. -/
def strIncludes (hay needle : String) : Bool :=
  listHasSub hay.data needle.data

/-! ## Prompt fingerprinter (normalizeText / fingerprintPrompt) -/

/-- Truncation of an integer to a signed 32-bit value, the ToInt32 operation
applied by the JS operators << and & used in fingerprintPrompt. -/
def toInt32 (n : Int) : Int :=
  (n + 2 ^ 31) % 2 ^ 32 - 2 ^ 31

/-- normalizeText: text.toLowerCase().replace(non-alphanumerics, "").trim(). -/
def normalizeText (text : String) : String :=
  strTrim (String.mk ((strLower text).data.filter isAlnumLower))

/-- One step of the rolling hash: hash = (hash << 5) - hash + charCode followed
by hash = hash & hash.  The shift truncates its int32 result first; the final
& truncates the whole expression. -/
def fpStep (hash : Int) (c : Nat) : Int :=
  toInt32 (toInt32 (hash * 32) - hash + c)

def fpHash (l : List Char) : Int :=
  l.foldl (fun h c => fpStep h c.toNat) 0

/-- Lower-case hexadecimal rendering of a Nat, JS Number.prototype.toString(16). -/
def natToHex (n : Nat) : String :=
  String.mk (Nat.toDigits 16 n)

/-- fingerprintPrompt from discoveryActions.ts: normalize, hash, render as
"v1:hex" with Math.abs applied to the signed 32-bit hash. -/
def fingerprintPrompt (text : String) : String :=
  let normalized := normalizeText text
  if normalized.length = 0 then "empty"
  else "v1:" ++ natToHex (fpHash normalized.data).natAbs

/-- Modelled from the spec words of section 4.1 for comparison with the code
(claim C5): the literal formula "hash = hash*31 - hash + charCode, truncated to
signed 32-bit". -/
def fpStepSpecLiteral (hash : Int) (c : Nat) : Int :=
  toInt32 (hash * 31 - hash + c)

def fingerprintSpecLiteral (text : String) : String :=
  let normalized := normalizeText text
  if normalized.length = 0 then "empty"
  else "v1:" ++ natToHex (normalized.data.foldl
    (fun h c => fpStepSpecLiteral h c.toNat) 0).natAbs

/-- The amended spec formula: multiply by 31 and add the char code, truncated
to signed 32 bits (this is what (hash << 5) - hash + charCode computes). -/
def fpStepSpecAmended (hash : Int) (c : Nat) : Int :=
  toInt32 (hash * 31 + c)

def fingerprintSpecAmended (text : String) : String :=
  let normalized := normalizeText text
  if normalized.length = 0 then "empty"
  else "v1:" ++ natToHex (normalized.data.foldl
    (fun h c => fpStepSpecAmended h c.toNat) 0).natAbs

/-! ## Backtracking regex matchers for the menu-option patterns

Each pattern of extractMenuOptions is embedded as a matcher at a fixed start
position, written in continuation-passing style so that the JS backtracking
semantics (greedy and lazy one-or-more over a character class, greedy optional
character, ordered alternation) are reproduced exactly. -/

/-- Case-insensitive literal matcher: consume the word, then continue. -/
def litCIK (k : List Char → Option α) : List Char → List Char → Option α
  | [], s => k s
  | _ :: _, [] => none
  | c :: w, x :: s => if charLowerEq c x then litCIK k w s else none

/-- One-or-more repetition of a character class with capture.  greedy = true
prefers the longest extension first, greedy = false (a lazy +?) prefers
stopping first; both backtrack through the continuation. -/
def repCapK (p : Char → Bool) (greedy : Bool)
    (k : List Char → List Char → Option α) (acc : List Char) :
    List Char → Option α
  | [] => if acc.isEmpty then none else k acc.reverse []
  | c :: s =>
    let ext := if p c then repCapK p greedy k (c :: acc) s else none
    let stop := if acc.isEmpty then none else k acc.reverse (c :: s)
    if greedy then ext.orElse (fun _ => stop) else stop.orElse (fun _ => ext)

/-- Non-capturing \s+ (greedy). -/
def wsPlusK (k : List Char → Option α) : List Char → Option α :=
  repCapK isWsChar true (fun _ s => k s) []

/-- Greedy optional single character, for the ,? in the patterns. -/
def optCharK (c0 : Char) (k : List Char → Option α) : List Char → Option α
  | [] => k []
  | c :: s => if c = c0 then (k s).orElse (fun _ => k (c :: s)) else k (c :: s)

/-- Single captured \d. -/
def digitK (k : Char → List Char → Option α) : List Char → Option α
  | [] => none
  | c :: s => if isDigitChar c then k c s else none

/-- A match of one pattern: capture group 1, capture group 2, and the suffix
after the end of the match. -/
abbrev PatMatch := String × String × List Char

/-- Pattern Press\s+(\d)\s+(?:for|to)\s+([^.,;]+) with the /gi flags. -/
def p1At (s : List Char) : Option PatMatch :=
  litCIK (fun s1 =>
    wsPlusK (fun s2 =>
      digitK (fun d s3 =>
        wsPlusK (fun s4 =>
          (litCIK (fun s5 =>
            wsPlusK (fun s6 =>
              repCapK isMenuLabelChar true
                (fun cap rest => some (String.mk [d], String.mk cap, rest)) [] s6)
            s5) "for".data s4).orElse (fun _ =>
          litCIK (fun s5 =>
            wsPlusK (fun s6 =>
              repCapK isMenuLabelChar true
                (fun cap rest => some (String.mk [d], String.mk cap, rest)) [] s6)
            s5) "to".data s4))
        s3) s2) s1) "press".data s

/-- Pattern For\s+([^.,;]+?),?\s+press\s+(\d) with the /gi flags. -/
def p2At (s : List Char) : Option PatMatch :=
  litCIK (fun s1 =>
    wsPlusK (fun s2 =>
      repCapK isMenuLabelChar false (fun cap s3 =>
        optCharK ',' (fun s4 =>
          wsPlusK (fun s5 =>
            litCIK (fun s6 =>
              wsPlusK (fun s7 =>
                digitK (fun d rest =>
                  some (String.mk cap, String.mk [d], rest)) s7)
              s6) "press".data s5)
          s4) s3) [] s2)
    s1) "for".data s

/-- Pattern To\s+([^.,;]+?),?\s+press\s+(\d) with the /gi flags. -/
def p3At (s : List Char) : Option PatMatch :=
  litCIK (fun s1 =>
    wsPlusK (fun s2 =>
      repCapK isMenuLabelChar false (fun cap s3 =>
        optCharK ',' (fun s4 =>
          wsPlusK (fun s5 =>
            litCIK (fun s6 =>
              wsPlusK (fun s7 =>
                digitK (fun d rest =>
                  some (String.mk cap, String.mk [d], rest)) s7)
              s6) "press".data s5)
          s4) s3) [] s2)
    s1) "to".data s

/-- Pattern Press\s+or\s+say\s+(\d)\s+for\s+([^.,;]+) with the /gi flags. -/
def p4At (s : List Char) : Option PatMatch :=
  litCIK (fun s1 =>
    wsPlusK (fun s2 =>
      litCIK (fun s3 =>
        wsPlusK (fun s4 =>
          litCIK (fun s5 =>
            wsPlusK (fun s6 =>
              digitK (fun d s7 =>
                wsPlusK (fun s8 =>
                  litCIK (fun s9 =>
                    wsPlusK (fun s10 =>
                      repCapK isMenuLabelChar true
                        (fun cap rest =>
                          some (String.mk [d], String.mk cap, rest)) [] s10)
                    s9) "for".data s8)
                s7) s6) s5) "say".data s4)
        s3) "or".data s2)
    s1) "press".data s

/-- Leftmost match at or after the current position. -/
def findAt (pAt : List Char → Option PatMatch) : List Char → Option PatMatch
  | [] => pAt []
  | c :: t => (pAt (c :: t)).orElse (fun _ => findAt pAt t)

/-- All matches in order, each search resuming after the previous match, as in
String.prototype.matchAll with a /g regex.  All four patterns consume at least
one character per match, so length + 1 rounds always suffice. -/
def matchAllGo (pAt : List Char → Option PatMatch) :
    Nat → List Char → List (String × String)
  | 0, _ => []
  | fuel + 1, s =>
    match findAt pAt s with
    | none => []
    | some (g1, g2, rest) => (g1, g2) :: matchAllGo pAt fuel rest

def matchAllCI (pAt : List Char → Option PatMatch) (s : List Char) :
    List (String × String) :=
  matchAllGo pAt (s.length + 1) s

/-! ## Menu option extractor -/

structure MenuOption where
  dtmf : String
  label : String
deriving Repr, DecidableEq

/-- The /\d/.test(g1) check of the source: does the group contain a digit. -/
def strHasDigit (s : String) : Bool :=
  s.data.any isDigitChar

/-- extractMenuOptions from discoveryActions.ts: run the four patterns in
order, collect every match of every pattern, and classify the groups by which
one contains a digit. -/
def extractMenuOptions (text : String) : List MenuOption :=
  let ms := matchAllCI p1At text.data ++ matchAllCI p2At text.data ++
            matchAllCI p3At text.data ++ matchAllCI p4At text.data
  ms.map (fun m =>
    if strHasDigit m.1 then { dtmf := m.1, label := strTrim m.2 }
    else { dtmf := m.2, label := strTrim m.1 })

/-! ## Telephony session abstraction and factory -/

/-- JS truthiness of the optional TELEPHONY_BACKEND_URL string: undefined and
the empty string are both falsy. -/
def isConfigured : Option String → Bool
  | none => false
  | some s => !s.isEmpty

/-- normalizeEntryPoint: trim, lower-case, strip everything outside
[0-9+a-z:]. -/
def isEntryPointChar (c : Char) : Bool :=
  isDigitChar c || c = '+' || ('a' ≤ c && c ≤ 'z') || c = ':'

def normalizeEntryPoint (value : String) : String :=
  String.mk (((listTrim value.data).map Char.toLower).filter isEntryPointChar)

/-- The test of the regex ^(\+?\d{6,})$ used by the factory. -/
def looksLikePhone (ep : String) : Bool :=
  (match ep.data with
   | '+' :: rest => rest.length ≥ 6 && rest.all isDigitChar
   | l => l.length ≥ 6 && l.all isDigitChar) ||
  listStartsWith "tel".data ep.data

def looksLikeSip (ep : String) : Bool :=
  listStartsWith "sip".data ep.data

inductive SessionKind where
  | simulated
  | real
deriving Repr, DecidableEq

/-- createTelephonySession: text and simulated input types always get the
simulator; every other shape of entry point requires a configured backend URL
and gets the real session. -/
def createTelephonySession (entryPoint : String) (inputType : Option String)
    (backendUrl : Option String) : Except String SessionKind :=
  if inputType = some "text" || inputType = some "simulated" then
    .ok .simulated
  else
    let ep := normalizeEntryPoint entryPoint
    if looksLikePhone ep || looksLikeSip ep then
      if !isConfigured backendUrl then
        .error "TELEPHONY_BACKEND_URL is not configured for RealTelephonySession"
      else .ok .real
    else
      if !isConfigured backendUrl then
        .error "TELEPHONY_BACKEND_URL is not configured for RealTelephonySession"
      else .ok .real

/-! ## Simulated telephony session -/

/-- A node of the simulator flow (FlowNode from the source; the metadata bag
is flattened to the dtmf tag, and confidence is outside the model). -/
inductive SimFlowNode where
  | mk (label : String) (type : String) (content : String)
      (dtmf : Option String) (children : List SimFlowNode)

def SimFlowNode.label : SimFlowNode → String
  | .mk l _ _ _ _ => l

def SimFlowNode.content : SimFlowNode → String
  | .mk _ _ c _ _ => c

def SimFlowNode.dtmf : SimFlowNode → Option String
  | .mk _ _ _ d _ => d

def SimFlowNode.children : SimFlowNode → List SimFlowNode
  | .mk _ _ _ _ cs => cs

structure CuratedIVR where
  id : String
  entryPoints : List String
  platform : String
  industry : String
  welcome : String
  branches : List SimFlowNode

/-- The pattern Press (\d) for ([^.,;]+) of parseTranscriptFlow. -/
def pTFAt (s : List Char) : Option PatMatch :=
  litCIK (fun s1 =>
    wsPlusK (fun s2 =>
      digitK (fun d s3 =>
        wsPlusK (fun s4 =>
          litCIK (fun s5 =>
            wsPlusK (fun s6 =>
              repCapK isMenuLabelChar true
                (fun cap rest => some (String.mk [d], String.mk cap, rest)) [] s6)
            s5) "for".data s4)
        s3) s2) s1) "press".data s

/-- parseTranscriptFlow: one branch per "Press N for X" occurrence. -/
def parseTranscriptFlow (text : String) : CuratedIVR :=
  { id := "transcript_flow"
    entryPoints := []
    platform := "Text Transcript"
    industry := "Unknown"
    welcome := text
    branches := (matchAllCI pTFAt text.data).map (fun m =>
      .mk (strTrim m.2) "prompt"
        ("(Simulated) You selected " ++ strTrim m.2 ++ ".")
        (some m.1) []) }

structure SimState where
  flow : CuratedIVR
  currentNode : Option SimFlowNode
  isConnected : Bool

/-- The SimulatedTelephonySession constructor. -/
def simInit (entryPoint : String) (inputType : Option String) : SimState :=
  if inputType = some "text" then
    { flow := parseTranscriptFlow entryPoint, currentNode := none, isConnected := false }
  else
    { flow := { id := "simulated_text", entryPoints := [entryPoint],
                platform := "Simulated", industry := "Unknown",
                welcome := entryPoint, branches := [] }
      currentNode := none, isConnected := false }

/-- dial(): connect and return the welcome transcript. -/
def simDial (st : SimState) : SimState × String :=
  ({ st with isConnected := true }, st.flow.welcome)

/-- sendDtmf(digit): walk to the matching child, or report an invalid
selection. -/
def simSendDtmf (digit : String) (st : SimState) : Except String (SimState × String) :=
  if !st.isConnected then .error "Call not connected"
  else
    let children := match st.currentNode with
      | some n => n.children
      | none => st.flow.branches
    if children.isEmpty then .ok (st, "Invalid option.")
    else
      match children.find? (fun c => c.dtmf = some digit) with
      | some m => .ok ({ st with currentNode := some m }, m.content)
      | none => .ok (st, "Invalid selection. Please try again.")

/-- Replay dial() followed by sendDtmf per digit, the final transcript
overwriting the previous one, exactly as the crawl loop does. -/
def simReplayGo : List String → SimState → String → Except String String
  | [], _, t => .ok t
  | d :: ds, st, _ =>
    match simSendDtmf d st with
    | .error e => .error e
    | .ok (st', t) => simReplayGo ds st' t

/-- The telephony oracle realised by a simulated session: the transcript heard
after replaying a DTMF path from a fresh call. -/
def simOracle (entryPoint : String) (inputType : Option String)
    (path : List String) : Except String String :=
  let d := simDial (simInit entryPoint inputType)
  simReplayGo path d.1 d.2

/-! ## Persisted records -/

/-- An ivr_nodes row as written by internal.discovery.insertNode.  The
metadata bag keeps the path (stored joined with ">" in the source; kept as the
list whose join is that string) and the triggering dtmf; confidence, audioUrl
and durationMs are float or random values outside the model. -/
structure IvrNode where
  parentId : Option Nat
  type : String
  label : String
  content : String
  path : List String
  dtmf : Option String
  fingerprint : String
  isLoop : Bool
  linkedNodeId : Option Nat
deriving Repr, DecidableEq

instance : Inhabited IvrNode :=
  ⟨{ parentId := none, type := "", label := "", content := "", path := [],
     dtmf := none, fingerprint := "", isLoop := false, linkedNodeId := none }⟩

/-- One DFS stack frame of the crawl loop. -/
structure Frame where
  path : List String
  parentId : Option Nat
  depth : Nat
deriving Repr, DecidableEq

/-- A discovery_jobs row.  resumeState is stored as a JSON string in the
source; it is kept as the parsed stack (bottom first in JSON; head of this
list is the top frame, i.e. the last JSON array element).  artifacts contents
(three JSON exports) are outside the model; only their presence is kept. -/
structure DiscoveryJob where
  projectId : Nat
  entryPoint : String
  inputType : Option String
  status : String
  platform : Option String
  startTime : Nat
  endTime : Option Nat
  waitingFor : Option String
  resumeState : Option (List Frame)
  artifacts : Option Unit
deriving Repr, DecidableEq

/-- A projects row (schema.ts). -/
structure Project where
  name : String
  description : Option String
  type : String
  status : String
  createdBy : String
  platform : Option String
deriving Repr, DecidableEq

/-! ## Job store mutations (discovery.ts) -/

/-- createJob: fresh queued job (the mutation also clears the project's nodes;
the node store itself is per-run in this model). -/
def createJob (projectId : Nat) (entryPoint : String) (inputType : Option String)
    (now : Nat) : DiscoveryJob :=
  { projectId := projectId, entryPoint := entryPoint, inputType := inputType,
    status := "queued", platform := none, startTime := now, endTime := none,
    waitingFor := none, resumeState := none, artifacts := none }

/-- setWaiting: park the job with the serialized stack. -/
def setWaiting (waitingFor : String) (resumeState : List Frame)
    (job : DiscoveryJob) : DiscoveryJob :=
  { job with status := "waiting_for_input", waitingFor := some waitingFor,
             resumeState := some resumeState }

/-- resumeJob: back to running, clearing only waitingFor (resumeState is not
touched by this mutation). -/
def resumeJob (job : DiscoveryJob) : DiscoveryJob :=
  { job with status := "running", waitingFor := none }

/-- completeJob: patch the job terminal fields and patch the owning project's
platform. -/
def completeJob (platform status : String) (artifacts : Option Unit) (now : Nat)
    (job : DiscoveryJob) (project : Project) : DiscoveryJob × Project :=
  ({ job with status := status, endTime := some now,
              platform := some platform, artifacts := artifacts },
   { project with platform := some platform })

/-! ## The crawl engine (runDiscovery DFS loop) -/

/-- The visited-fingerprint map of one invocation, Map<string, Id> with
first-written-wins reads (a fingerprint is only ever set once, when absent). -/
def lookupFp : List (String × Nat) → String → Option Nat
  | [], _ => none
  | (fp, id) :: t, q => if fp = q then some id else lookupFp t q

def maxDepth : Nat := 5

/-- The in-memory state of one invocation of the DFS loop: the explicit stack
(top at the head; the JS array keeps the top at the end), the visited map, the
nodes inserted by this invocation (the id of the k-th is base + k for the
store cursor base), and the metrics counters. -/
structure LoopState where
  stack : List Frame
  visited : List (String × Nat)
  nodes : List IvrNode
  nodesDiscovered : Nat
  loopsDetected : Nat
  maxDepthReached : Nat
deriving Repr, DecidableEq

/-- The ivr_nodes row inserted for a frame, given the transcript heard there
and the visited-map hit (firstId is the map entry for the fingerprint, present
exactly when the node is a loop). -/
def mkNode (frame : Frame) (transcript : String) (firstId : Option Nat) : IvrNode :=
  { parentId := frame.parentId
    type := if frame.depth = 0 then "menu" else "prompt"
    label := if frame.depth = 0 then "Main Menu"
             else "Option " ++ (frame.path.getLast?.getD "undefined")
    content := transcript
    path := frame.path
    dtmf := frame.path.getLast?
    fingerprint := fingerprintPrompt transcript
    isLoop := firstId.isSome
    linkedNodeId := if firstId.isSome then firstId else none }

/-- The child frames pushed for the extracted options.  The source pushes them
in reverse index order onto the array end; with the top of the stack at the
head this is exactly the options in order, prepended. -/
def childFrames (frame : Frame) (nodeId : Nat) (options : List MenuOption) :
    List Frame :=
  options.map (fun o =>
    { path := frame.path ++ [o.dtmf], parentId := some nodeId,
      depth := frame.depth + 1 })

/-- The free-form-input sniff: no options and the lower-cased transcript
mentions "enter" or "pin". -/
def needsInput (transcript : String) (options : List MenuOption) : Bool :=
  (strIncludes (strLower transcript) "enter" ||
   strIncludes (strLower transcript) "pin") && options.length == 0

inductive RunOutcome where
  | completed
  | suspended
  | errored (msg : String)
  | outOfFuel
deriving Repr, DecidableEq

/-- The while loop of runDiscovery.  The telephony oracle gives the transcript
reached by dialing and replaying a DTMF path (or the transport error thrown on
the way); a fresh session is created per frame via the factory, whose
configuration error likewise aborts the run.  The loop is fuel-indexed because
its frontier grows; outOfFuel only occurs when the fuel is insufficient and is
distinguished from every real outcome. -/
def runLoop (ep : String) (it bu : Option String)
    (oracle : List String → Except String String) (base : Nat) :
    Nat → LoopState → LoopState × RunOutcome
  | fuel, st =>
    match st.stack with
    | [] => (st, .completed)
    | frame :: rest =>
      match fuel with
      | 0 => (st, .outOfFuel)
      | fuel + 1 =>
        if frame.depth > maxDepth then
          runLoop ep it bu oracle base fuel { st with stack := rest }
        else
          let st1 := { st with
            stack := rest
            maxDepthReached := Nat.max st.maxDepthReached frame.depth }
          match createTelephonySession ep it bu with
          | .error msg => (st1, .errored msg)
          | .ok _ =>
            match oracle frame.path with
            | .error msg => (st1, .errored msg)
            | .ok transcript =>
              let firstId := lookupFp st1.visited (fingerprintPrompt transcript)
              let node := mkNode frame transcript firstId
              let nodeId := base + st1.nodes.length
              let st2 := { st1 with
                nodes := st1.nodes ++ [node]
                nodesDiscovered := st1.nodesDiscovered + 1 }
              match firstId with
              | some _ =>
                runLoop ep it bu oracle base fuel
                  { st2 with loopsDetected := st2.loopsDetected + 1 }
              | none =>
                let st3 := { st2 with
                  visited := (fingerprintPrompt transcript, nodeId) :: st2.visited }
                let options := extractMenuOptions transcript
                if options.length > 0 then
                  runLoop ep it bu oracle base fuel
                    { st3 with stack := childFrames frame nodeId options ++ st3.stack }
                else if needsInput transcript options then
                  ({ st3 with stack := frame :: st3.stack }, .suspended)
                else
                  runLoop ep it bu oracle base fuel st3

/-- The arguments of the runDiscovery action (resumeStack kept parsed). -/
structure RunArgs where
  entryPoint : String
  inputType : Option String
  resumeInput : Option String
  resumeStack : Option (List Frame)
deriving Repr, DecidableEq

/-- The resume initialization inside runDiscovery: if a resume input was given
(JS truthiness: a non-empty string) and the restored stack is non-empty, pop
the top frame and push it back with the input appended to its path. -/
def applyResumeInput (resumeInput : Option String) : List Frame → List Frame
  | [] => []
  | f :: r =>
    match resumeInput with
    | some input =>
      if input.isEmpty then f :: r
      else { f with path := f.path ++ [input] } :: r
    | none => f :: r

/-- The result of one invocation of the runDiscovery action: the patched job
and project rows, the loop state (with the nodes inserted by this invocation),
the control outcome, and the log lines whose text the model determines (the
top-level catch handler's line; the in-loop info and debug lines interpolate
float and environment data outside the model). -/
structure RunOutput where
  job : DiscoveryJob
  project : Project
  state : LoopState
  outcome : RunOutcome
  logs : List (String × String)
deriving Repr, DecidableEq

/-- First line of the misconfiguration message thrown when the backend URL
points at the Convex deployment itself (the remediation lines are elided). -/
def invalidConfigMsg (bu : String) : String :=
  "INVALID CONFIGURATION: TELEPHONY_BACKEND_URL is set to " ++ bu ++ "."

/-- The proactive configuration check at the top of runDiscovery, performed
before the stack is initialised whenever real calling would be required. -/
def preflightError (inputType bu : Option String) : Option String :=
  if inputType ≠ some "simulated" ∧ inputType ≠ some "text" then
    if !isConfigured bu then
      some "TELEPHONY_BACKEND_URL is missing. Please set it in the Convex Dashboard."
    else if strIncludes (bu.getD "") "convex.site" ||
            strIncludes (bu.getD "") "vly.site" then
      some (invalidConfigMsg (bu.getD ""))
    else none
  else none

/-- The platform label reported on successful completion. -/
def completionPlatform (bu : Option String) : String :=
  if isConfigured bu then "Live/Discovered" else "Simulated"

/-- The terminal mutation after the DFS loop returns:
completeJob("completed") when the stack drained, nothing beyond the
setWaiting already issued when a node demanded human input, and the top-level
catch handler logging the failure and calling completeJob("failed", platform
"Unknown") for any thrown error. -/
def finishRun (bu : Option String) (job : DiscoveryJob) (project : Project)
    (now : Nat) : LoopState × RunOutcome → RunOutput
  | (st, .completed) =>
    let (j, p) := completeJob (completionPlatform bu) "completed" (some ()) now
      job project
    { job := j, project := p, state := st, outcome := .completed, logs := [] }
  | (st, .suspended) =>
    { job := setWaiting "PIN/ID" st.stack job, project := project, state := st,
      outcome := .suspended, logs := [] }
  | (st, .errored msg) =>
    let (j, p) := completeJob "Unknown" "failed" none now job project
    { job := j, project := p, state := st, outcome := .errored msg,
      logs := [("Critical Failure: " ++ msg, "error")] }
  | (st, .outOfFuel) =>
    { job := job, project := project, state := st, outcome := .outOfFuel,
      logs := [] }

/-- The runDiscovery action: preflight check, stack initialisation (fresh root
frame, or restored stack with the resume input applied), the DFS loop, and the
terminal mutation of finishRun.  A preflight error is thrown before the loop
runs and lands in the same top-level catch handler. -/
def runDiscoveryModel (bu : Option String)
    (oracle : List String → Except String String) (base fuel : Nat)
    (args : RunArgs) (job : DiscoveryJob) (project : Project) (now : Nat) :
    RunOutput :=
  match preflightError args.inputType bu with
  | some msg =>
    let (j, p) := completeJob "Unknown" "failed" none now job project
    { job := j, project := p,
      state := { stack := [], visited := [], nodes := [], nodesDiscovered := 0,
                 loopsDetected := 0, maxDepthReached := 0 },
      outcome := .errored msg,
      logs := [("Critical Failure: " ++ msg, "error")] }
  | none =>
    let stack0 := match args.resumeStack with
      | some stk => applyResumeInput args.resumeInput stk
      | none => [{ path := [], parentId := none, depth := 0 }]
    let st0 : LoopState :=
      { stack := stack0, visited := [], nodes := [], nodesDiscovered := 0,
        loopsDetected := 0, maxDepthReached := 0 }
    finishRun bu job project now
      (runLoop args.entryPoint args.inputType bu oracle base fuel st0)

/-- The continueDiscovery action: only valid with a saved resume state; it
appends the input to the top (last JSON element) frame of the parsed stack and
re-invokes runDiscovery with both the updated stack and resumeInput set. -/
def continueDiscoveryArgs (job : DiscoveryJob) (input : String) :
    Except String RunArgs :=
  match job.resumeState with
  | none => .error "Cannot resume job: No state found"
  | some stk =>
    let stk' := match stk with
      | [] => ([] : List Frame)
      | f :: r => { f with path := f.path ++ [input] } :: r
    .ok { entryPoint := job.entryPoint, inputType := job.inputType,
          resumeInput := some input, resumeStack := some stk' }

/-! ## Reachable job states (claim C3) -/

/-- Job states reachable through the store mutations as the engine invokes
them: createJob starts a run, setWaiting parks it, resumeJob un-parks it, and
completeJob finishes it with status "completed" or "failed" (the only statuses
the action ever passes). -/
inductive JobReachable : DiscoveryJob → Prop where
  | create (pid : Nat) (ep : String) (it : Option String) (now : Nat) :
      JobReachable (createJob pid ep it now)
  | wait (wf : String) (rs : List Frame) (j : DiscoveryJob)
      (h : JobReachable j) : JobReachable (setWaiting wf rs j)
  | resume (j : DiscoveryJob) (h : JobReachable j) : JobReachable (resumeJob j)
  | complete (p s : String) (a : Option Unit) (now : Nat) (j : DiscoveryJob)
      (proj : Project) (hs : s = "completed" ∨ s = "failed")
      (h : JobReachable j) : JobReachable (completeJob p s a now j proj).1

/-! ## The loop-detection invariant of one traversal invocation (claim C2) -/

/-- Invariant carried by the DFS loop of one invocation: the visited map sends
a fingerprint to the id of the first node inserted with it (always a non-loop
node); every inserted node's fingerprint is in the map; a node is flagged
isLoop exactly when an earlier node of this invocation shares its fingerprint,
and then linkedNodeId names the first such node; and the parent of every
pending frame and of every inserted node is either a pre-existing id (below
the store cursor base) or a non-loop node of this invocation. -/
structure LoopInv (base : Nat) (st : LoopState) : Prop where
  vsound : ∀ fp id, lookupFp st.visited fp = some id →
    ∃ i n, st.nodes.get? i = some n ∧ id = base + i ∧ n.fingerprint = fp ∧
      n.isLoop = false ∧
      ∀ k m, k < i → st.nodes.get? k = some m → m.fingerprint ≠ fp
  vcomplete : ∀ i n, st.nodes.get? i = some n →
    lookupFp st.visited n.fingerprint ≠ none
  loopiff : ∀ j n, st.nodes.get? j = some n →
    (n.isLoop = true ↔
      ∃ i m, i < j ∧ st.nodes.get? i = some m ∧ m.fingerprint = n.fingerprint)
  looplink : ∀ j n, st.nodes.get? j = some n → n.isLoop = true →
    ∃ i m, i < j ∧ st.nodes.get? i = some m ∧ m.fingerprint = n.fingerprint ∧
      m.isLoop = false ∧
      (∀ k m', k < i → st.nodes.get? k = some m' →
        m'.fingerprint ≠ n.fingerprint) ∧
      n.linkedNodeId = some (base + i)
  stackpar : ∀ f ∈ st.stack, ∀ p, f.parentId = some p →
    p < base ∨ ∃ i n, st.nodes.get? i = some n ∧ p = base + i ∧ n.isLoop = false
  nodespar : ∀ j n, st.nodes.get? j = some n → ∀ p, n.parentId = some p →
    p < base ∨ ∃ i n', st.nodes.get? i = some n' ∧ p = base + i ∧ n'.isLoop = false

/-! ## Concrete inputs used by the claim theorems and witnesses -/

def demoProject : Project :=
  { name := "Demo", description := none, type := "voice", status := "active",
    createdBy := "user", platform := none }

/-- The concrete scenario of claim C6: simulated discovery of the toll-free
entry point. -/
def c6Job : DiscoveryJob := createJob 0 "+18005550199" (some "simulated") 0

def c6Run : RunOutput :=
  runDiscoveryModel none (simOracle "+18005550199" (some "simulated")) 0 10
    { entryPoint := "+18005550199", inputType := some "simulated",
      resumeInput := none, resumeStack := none }
    c6Job demoProject 1

/-- A job parked for input after reaching depth 1 via digit "1" (claim C1). -/
def c1Job : DiscoveryJob :=
  setWaiting "PIN/ID" [{ path := ["1"], parentId := some 0, depth := 1 }]
    (createJob 0 "+15551234567" none 0)

def c1Args : RunArgs :=
  { entryPoint := "+15551234567", inputType := none, resumeInput := some "4321",
    resumeStack := some [{ path := ["1", "4321"], parentId := some 0, depth := 1 }] }

def c1Run : RunOutput :=
  runDiscoveryModel (some "http://localhost:3000") (fun _ => .ok "Goodbye") 10 5
    c1Args c1Job demoProject 2

/-- A telephony backend whose IVR offers one option per level down to depth 5,
asks for a PIN there, and says goodbye further down (claims C4 and C1). -/
def c4Oracle : List String → Except String String := fun p =>
  if p.length < 5 then
    .ok ("Area " ++ toString p.length ++ ". Press 1 to Continue")
  else if p.length = 5 then .ok "Please enter your PIN"
  else .ok "Goodbye"

def c4Job : DiscoveryJob := createJob 0 "+15551234567" none 0

def c4Run1 : RunOutput :=
  runDiscoveryModel (some "http://localhost:3000") c4Oracle 0 30
    { entryPoint := "+15551234567", inputType := none, resumeInput := none,
      resumeStack := none }
    c4Job demoProject 5

def c4Args2 : RunArgs :=
  { entryPoint := "+15551234567", inputType := none, resumeInput := some "9",
    resumeStack := some [{ path := ["1", "1", "1", "1", "1", "9"],
                           parentId := some 4, depth := 5 }] }

def c4Run2 : RunOutput :=
  runDiscoveryModel (some "http://localhost:3000") c4Oracle 100 10 c4Args2
    c4Run1.job c4Run1.project 9

/-- A fresh simulated run used to witness the depth bound (claim C4). -/
def c4DemoRun : RunOutput :=
  runDiscoveryModel none (simOracle "hello there" (some "simulated")) 0 5
    { entryPoint := "hello there", inputType := some "simulated",
      resumeInput := none, resumeStack := none }
    (createJob 0 "hello there" (some "simulated") 0) demoProject 1

/-- A backend where two distinct depth-1 paths reach menus with identical
transcripts, so the second is a loop (claim C2's witness). -/
def c2Oracle : List String → Except String String := fun p =>
  if p = [] then .ok "Press 1 for Sales. Press 2 for Parts."
  else .ok "Same closing message"

def c2Nodes : List IvrNode :=
  (runLoop "+15551234567" none (some "http://localhost:3000") c2Oracle 0 10
    { stack := [{ path := [], parentId := none, depth := 0 }], visited := [],
      nodes := [], nodesDiscovered := 0, loopsDetected := 0,
      maxDepthReached := 0 }).1.nodes

/-- A reachable job violating the resumeState ↔ waiting_for_input equivalence
(claim C3). -/
def c3Bad : DiscoveryJob :=
  resumeJob (setWaiting "PIN/ID" [] (createJob 0 "+15551234567" none 0))

/-- A run failing on the first dial, for the error-path witnesses (claims C9
and C10). -/
def c9FailRun : RunOutput :=
  runDiscoveryModel none (fun _ => .error "boom") 0 5
    { entryPoint := "x", inputType := some "simulated", resumeInput := none,
      resumeStack := none }
    (createJob 0 "x" (some "simulated") 0) demoProject 3

/-- A run with real calling required but no backend configured (claim C8). -/
def c8FailRun : RunOutput :=
  runDiscoveryModel none (fun _ => .ok "unused") 0 5
    { entryPoint := "+15551234567", inputType := none, resumeInput := none,
      resumeStack := none }
    (createJob 0 "+15551234567" none 0) demoProject 4

/-- A failing run for the frame-effect witness (claim C10). -/
def c10FailRun : RunOutput :=
  runDiscoveryModel none (fun _ => .error "dial failed") 0 5
    { entryPoint := "y", inputType := some "simulated", resumeInput := none,
      resumeStack := none }
    (createJob 1 "y" (some "simulated") 0) demoProject 6

/-! ## Supporting lemmas -/

theorem fpStep_eq_amended (h : Int) (c : Nat) : fpStep h c = fpStepSpecAmended h c := by
  unfold fpStep fpStepSpecAmended toInt32
  have h32 : (2 : Int) ^ 32 = 4294967296 := by norm_num
  have h31 : (2 : Int) ^ 31 = 2147483648 := by norm_num
  rw [h32, h31]
  omega

theorem fpFold_eq_amended (l : List Char) : ∀ h : Int,
    l.foldl (fun a c => fpStep a c.toNat) h =
    l.foldl (fun a c => fpStepSpecAmended a c.toNat) h := by
  induction l with
  | nil => intro h; rfl
  | cons c t ih => intro h; simp only [List.foldl_cons, fpStep_eq_amended, ih]

/-! ## Claim theorems -/

/-- C5 (corrected): fingerprintPrompt is the pure function that lower-cases,
strips non-alphanumerics, folds hash := trunc32(hash * 31 + charCode) (the
amended formula; the spec's literal "hash*31 - hash" is refuted separately),
renders "v1:hex" of the absolute value, and maps empty normalizations to
"empty"; normalization-equal texts fingerprint identically. -/
theorem c5_fingerprint_refinement :
    (∀ t, fingerprintPrompt t = fingerprintSpecAmended t) ∧
    fingerprintPrompt "Press 1 for Sales." = fingerprintPrompt "press 1 for sales" ∧
    (∀ t, normalizeText t = "" → fingerprintPrompt t = "empty") := by
  refine ⟨?_, by decide, ?_⟩
  · intro t
    by_cases h : (normalizeText t).length = 0
    · simp only [fingerprintPrompt, fingerprintSpecAmended, h, if_pos]
    · simp only [fingerprintPrompt, fingerprintSpecAmended, h, if_neg,
        not_false_iff, fpHash, fpFold_eq_amended]
  · intro t ht
    simp only [fingerprintPrompt, ht]
    rfl

/-- C5 witness: the refinement at a concrete text and the sentinel at a text
whose normalization is empty. -/
theorem c5_fingerprint_refinement_witness :
    fingerprintPrompt "Press 0 for an agent" =
      fingerprintSpecAmended "Press 0 for an agent" ∧
    fingerprintPrompt "?!?" = "empty" :=
  ⟨c5_fingerprint_refinement.1 "Press 0 for an agent",
   c5_fingerprint_refinement.2.2 "?!?" (by decide)⟩

/-- C5 counterexample: the spec's literal recurrence hash*31 - hash + charCode
disagrees with the code (which computes (hash shifted left by 5) - hash +
charCode, i.e. hash*31 + charCode) already on the text "ab". -/
theorem c5_formula_cex : fingerprintPrompt "ab" ≠ fingerprintSpecLiteral "ab" := by
  decide

/-- C7 (confirmed): the two-sentence billing prompt yields exactly the two
options, in order, with no extra or duplicate matches from the other
patterns. -/
theorem c7_extract_order :
    extractMenuOptions "Press 1 for Billing. Press 2 for Support." =
      [{ dtmf := "1", label := "Billing" }, { dtmf := "2", label := "Support" }] := by
  decide

/-- C6 counterexample: with input-type "simulated" the session's welcome is
the entry point string itself, so the run completes with a single root node
and zero depth-1 children — not the three children the claim asserts. -/
theorem c6_three_children_cex :
    c6Run.outcome = RunOutcome.completed ∧
    (c6Run.state.nodes.filter (fun n => n.parentId.isSome)).length ≠ 3 ∧
    c6Run.state.nodes.length = 1 := by
  decide

/-- C6 (amended): the simulated run of "+18005550199" persists exactly one
node — a root menu whose content is the entry point — with no loops. -/
theorem c6_simulated_run_result :
    c6Run.state.nodes =
      [{ parentId := none, type := "menu", label := "Main Menu",
         content := "+18005550199", path := [], dtmf := none,
         fingerprint := fingerprintPrompt "+18005550199", isLoop := false,
         linkedNodeId := none }] ∧
    c6Run.outcome = RunOutcome.completed ∧
    c6Run.state.loopsDetected = 0 := by
  decide

/-- C1 (code bug): resuming a job waiting with top frame path ["1"] using
input "4321" appends the input twice — once in continueDiscovery and again in
runDiscovery's resume initialisation — so the frame's node is reached via
["1", "4321", "4321"] instead of the ["1", "4321"] the claim (and spec)
require. -/
theorem c1_resume_double_append :
    continueDiscoveryArgs c1Job "4321" = .ok c1Args ∧
    applyResumeInput c1Args.resumeInput ((c1Args.resumeStack).getD []) =
      [{ path := ["1", "4321", "4321"], parentId := some 0, depth := 1 }] ∧
    c1Run.state.nodes.map (fun n => n.path) = [["1", "4321", "4321"]] ∧
    ["1", "4321", "4321"] ≠ ["1", "4321"] := by
  decide

/-- C3 counterexample: resumeJob sets status "running" without clearing
resumeState, so the reachable state createJob → setWaiting → resumeJob has a
resume stack while not waiting_for_input, refuting the if-and-only-if. -/
theorem c3_resume_retains_state_cex :
    JobReachable c3Bad ∧ c3Bad.status = "running" ∧
    c3Bad.resumeState.isSome = true :=
  ⟨JobReachable.resume _
      (JobReachable.wait _ _ _ (JobReachable.create 0 "+15551234567" none 0)),
   rfl, rfl⟩

/-- C3 (amended): only the forward direction holds — every reachable job in
status waiting_for_input has a resume stack; the stack is simply never
cleared on resume or completion. -/
theorem c3_waiting_has_resume_state (j : DiscoveryJob) (h : JobReachable j)
    (hw : j.status = "waiting_for_input") : j.resumeState.isSome = true := by
  induction h with
  | create pid ep it now =>
    exact absurd hw (show ¬("queued" : String) = "waiting_for_input" by decide)
  | wait wf rs j hj ih => rfl
  | resume j hj ih =>
    exact absurd hw (show ¬("running" : String) = "waiting_for_input" by decide)
  | complete p s a now j proj hs hj ih =>
    rcases hs with h1 | h1 <;> subst h1
    · exact absurd hw (show ¬("completed" : String) = "waiting_for_input" by decide)
    · exact absurd hw (show ¬("failed" : String) = "waiting_for_input" by decide)

/-- C3 witness: the parked job right after setWaiting. -/
theorem c3_waiting_has_resume_state_witness :
    (setWaiting "PIN/ID" [] (createJob 0 "+15551234567" none 0)).resumeState.isSome = true :=
  c3_waiting_has_resume_state _
    (JobReachable.wait _ _ _ (JobReachable.create 0 "+15551234567" none 0)) rfl

theorem finishRun_state (bu : Option String) (job : DiscoveryJob)
    (project : Project) (now : Nat) (pr : LoopState × RunOutcome) :
    (finishRun bu job project now pr).state = pr.1 := by
  rcases pr with ⟨st, oc⟩
  cases oc <;> rfl

theorem runLoop_path_bound (ep : String) (it bu : Option String)
    (oracle : List String → Except String String) (base : Nat) :
    ∀ (fuel : Nat) (st : LoopState),
      (∀ f ∈ st.stack, f.path.length = f.depth) →
      (∀ n ∈ st.nodes, n.path.length ≤ maxDepth) →
      ∀ n ∈ (runLoop ep it bu oracle base fuel st).1.nodes,
        n.path.length ≤ maxDepth := by
  intro fuel
  induction fuel with
  | zero =>
    intro st hstk hnodes
    rw [runLoop]
    cases hs : st.stack with
    | nil => exact hnodes
    | cons f r => exact hnodes
  | succ fuel ih =>
    intro st hstk hnodes
    rw [runLoop]
    cases hs : st.stack with
    | nil => exact hnodes
    | cons frame rest =>
      dsimp only
      have hframe : frame ∈ st.stack := by
        rw [hs]; exact List.mem_cons_self _ _
      have hrest : ∀ f ∈ rest, f.path.length = f.depth := fun f hf =>
        hstk f (by rw [hs]; exact List.mem_cons_of_mem _ hf)
      by_cases hd : frame.depth > maxDepth
      · rw [if_pos hd]
        exact ih _ hrest hnodes
      · rw [if_neg hd]
        have hfd : frame.path.length ≤ maxDepth := by
          rw [hstk frame hframe]; omega
        have hsnoc : ∀ (t : String) (fid : Option Nat),
            ∀ n ∈ st.nodes ++ [mkNode frame t fid], n.path.length ≤ maxDepth := by
          intro t fid n hn
          rcases List.mem_append.mp hn with h | h
          · exact hnodes n h
          · rw [List.mem_singleton.mp h]
            exact hfd
        have hchild : ∀ (nid : Nat) (opts : List MenuOption),
            ∀ f ∈ childFrames frame nid opts, f.path.length = f.depth := by
          intro nid opts f hf
          rcases List.mem_map.mp hf with ⟨o, ho, hfo⟩
          rw [← hfo]
          simp only [List.length_append, List.length_singleton,
            hstk frame hframe]
        cases hcs : createTelephonySession ep it bu with
        | error msg => exact hnodes
        | ok k =>
          dsimp only
          cases ho : oracle frame.path with
          | error msg => exact hnodes
          | ok transcript =>
            dsimp only
            cases hfid : lookupFp st.visited (fingerprintPrompt transcript) with
            | some fid =>
              dsimp only
              exact ih _ hrest (hsnoc transcript (some fid))
            | none =>
              dsimp only
              by_cases hop : (extractMenuOptions transcript).length > 0
              · rw [if_pos hop]
                refine ih _ ?_ (hsnoc transcript none)
                intro f hf
                rcases List.mem_append.mp hf with h | h
                · exact hchild _ _ f h
                · exact hrest f h
              · rw [if_neg hop]
                by_cases hni : needsInput transcript (extractMenuOptions transcript) = true
                · rw [if_pos hni]
                  exact hsnoc transcript none
                · rw [if_neg hni]
                  exact ih _ hrest (hsnoc transcript none)

/-- C4 (amended): in a fresh (non-resumed) run every persisted node's path
has at most maxDepth = 5 digits — frames at depth > 5 are pruned before
persistence and fresh frames keep path length equal to depth.  The original
claim's extension to resumed runs is refuted separately: a resume appends
input digits to the top frame's path without touching its depth, so the
pruning bound no longer limits the digit count. -/
theorem c4_fresh_run_depth_bound (bu : Option String)
    (oracle : List String → Except String String) (base fuel : Nat)
    (ep : String) (it ri : Option String) (job : DiscoveryJob)
    (project : Project) (now : Nat) :
    ∀ n ∈ (runDiscoveryModel bu oracle base fuel
        { entryPoint := ep, inputType := it, resumeInput := ri,
          resumeStack := none } job project now).state.nodes,
      n.path.length ≤ maxDepth := by
  have hinit : ∀ f ∈ [({ path := [], parentId := none, depth := 0 } : Frame)],
      f.path.length = f.depth := by
    intro f hf
    rw [List.mem_singleton.mp hf]
    rfl
  have hbound := runLoop_path_bound ep it bu oracle base fuel
    { stack := [{ path := [], parentId := none, depth := 0 }], visited := [],
      nodes := [], nodesDiscovered := 0, loopsDetected := 0,
      maxDepthReached := 0 }
    hinit (by intro n hn; cases hn)
  unfold runDiscoveryModel
  dsimp only
  cases hpre : preflightError it bu with
  | some msg =>
    dsimp only
    intro n hn
    cases hn
  | none =>
    dsimp only
    rw [finishRun_state]
    exact hbound

/-- C4 counterexample: a real backend that asks for a PIN at depth 5; after
the suspend/resume round trip the resumed frame (depth 5, input appended twice
by the resume path) persists a node whose path has 7 digits, exceeding
maxDepth, although no frame ever had depth > 5. -/
theorem c4_resumed_path_exceeds_cex :
    c4Run1.outcome = RunOutcome.suspended ∧
    c4Run1.job.status = "waiting_for_input" ∧
    continueDiscoveryArgs c4Run1.job "9" = .ok c4Args2 ∧
    c4Run2.outcome = RunOutcome.completed ∧
    (∃ n ∈ c4Run2.state.nodes, maxDepth < n.path.length) := by
  decide

/-- C4 witness: the root node of a fresh simulated run respects the bound. -/
theorem c4_fresh_run_depth_bound_witness :
    (c4DemoRun.state.nodes.getD 0 default).path.length ≤ maxDepth :=
  c4_fresh_run_depth_bound none (simOracle "hello there" (some "simulated")) 0 5
    "hello there" (some "simulated") none
    (createJob 0 "hello there" (some "simulated") 0) demoProject 1 _ (by decide)

/-! ## List indexing helpers for the loop invariant -/

theorem get?_lt {α : Type} {l : List α} {i : Nat} {a : α}
    (h : l.get? i = some a) : i < l.length := by
  rcases List.get?_eq_some.mp h with ⟨h', _⟩
  exact h'

theorem get?_snoc_lt {α : Type} {l : List α} {x : α} {i : Nat}
    (h : i < l.length) : (l ++ [x]).get? i = l.get? i :=
  List.get?_append h

theorem get?_snoc_len {α : Type} (l : List α) (x : α) :
    (l ++ [x]).get? l.length = some x :=
  List.get?_concat_length l x

theorem get?_snoc_cases {α : Type} {l : List α} {x n : α} {i : Nat}
    (h : (l ++ [x]).get? i = some n) :
    (i < l.length ∧ l.get? i = some n) ∨ (i = l.length ∧ n = x) := by
  rcases lt_trichotomy i l.length with hlt | heq | hgt
  · exact Or.inl ⟨hlt, by rw [← get?_snoc_lt hlt]; exact h⟩
  · subst heq
    rw [get?_snoc_len] at h
    exact Or.inr ⟨rfl, (Option.some.inj h).symm⟩
  · exfalso
    have hnone : (l ++ [x]).get? i = none := by
      rw [List.get?_eq_none]
      simp only [List.length_append, List.length_singleton]
      omega
    rw [hnone] at h
    exact Option.noConfusion h

theorem exists_nonloop_snoc {N : List IvrNode} {x : IvrNode} {base p : Nat}
    (h : p < base ∨ ∃ i n, N.get? i = some n ∧ p = base + i ∧ n.isLoop = false) :
    p < base ∨
      ∃ i n, (N ++ [x]).get? i = some n ∧ p = base + i ∧ n.isLoop = false := by
  rcases h with h | ⟨i, n, hget, hp, hl⟩
  · exact Or.inl h
  · exact Or.inr ⟨i, n, by rw [get?_snoc_lt (get?_lt hget)]; exact hget, hp, hl⟩

theorem lookupFp_cons (a : String) (b : Nat) (v : List (String × Nat))
    (q : String) :
    lookupFp ((a, b) :: v) q = if a = q then some b else lookupFp v q := rfl

/-! ## Preservation of the loop-detection invariant -/

theorem LoopInv.mono (base : Nat) {st st' : LoopState} (h : LoopInv base st)
    (hv : st'.visited = st.visited) (hn : st'.nodes = st.nodes)
    (hstk : ∀ f ∈ st'.stack, f ∈ st.stack) : LoopInv base st' := by
  refine ⟨?_, ?_, ?_, ?_, ?_, ?_⟩
  · intro fp id hid
    rw [hv] at hid
    rw [hn]
    exact h.vsound fp id hid
  · intro i n hget
    rw [hn] at hget
    rw [hv]
    exact h.vcomplete i n hget
  · intro j n hget
    rw [hn] at hget ⊢
    exact h.loopiff j n hget
  · intro j n hget hl
    rw [hn] at hget ⊢
    exact h.looplink j n hget hl
  · intro f hf p hp
    rw [hn]
    exact h.stackpar f (hstk f hf) p hp
  · intro j n hget p hp
    rw [hn] at hget ⊢
    exact h.nodespar j n hget p hp

theorem LoopInv.insert_loop (base : Nat) {st : LoopState} (h : LoopInv base st)
    (frame : Frame) (transcript : String) (fid : Nat)
    (hfid : lookupFp st.visited (fingerprintPrompt transcript) = some fid)
    (hpar : ∀ p, frame.parentId = some p →
      p < base ∨ ∃ i n, st.nodes.get? i = some n ∧ p = base + i ∧ n.isLoop = false)
    {st' : LoopState}
    (hv : st'.visited = st.visited)
    (hn : st'.nodes = st.nodes ++ [mkNode frame transcript (some fid)])
    (hstk : ∀ f ∈ st'.stack, f ∈ st.stack) : LoopInv base st' := by
  obtain ⟨i0, n0, hget0, hid0, hfp0, hnl0, hfirst0⟩ := h.vsound _ _ hfid
  have hi0 : i0 < st.nodes.length := get?_lt hget0
  refine ⟨?_, ?_, ?_, ?_, ?_, ?_⟩
  · intro fp id hid
    rw [hv] at hid
    obtain ⟨i, n, hget, hide, hfp, hnl, hfirst⟩ := h.vsound fp id hid
    refine ⟨i, n, ?_, hide, hfp, hnl, ?_⟩
    · rw [hn, get?_snoc_lt (get?_lt hget)]
      exact hget
    · intro k m hk hgetk
      rw [hn, get?_snoc_lt (by have := get?_lt hget; omega)] at hgetk
      exact hfirst k m hk hgetk
  · intro i n hget
    rw [hn] at hget
    rw [hv]
    rcases get?_snoc_cases hget with ⟨hi, hgo⟩ | ⟨hi, hnx⟩
    · exact h.vcomplete i n hgo
    · subst hnx
      show lookupFp st.visited (fingerprintPrompt transcript) ≠ none
      rw [hfid]
      exact Option.noConfusion
  · intro j n hget
    rw [hn] at hget ⊢
    rcases get?_snoc_cases hget with ⟨hj, hgo⟩ | ⟨hj, hnx⟩
    · constructor
      · intro hl
        obtain ⟨i, m, hij, hgeti, hfpi⟩ := (h.loopiff j n hgo).mp hl
        exact ⟨i, m, hij, by rw [get?_snoc_lt (get?_lt hgeti)]; exact hgeti, hfpi⟩
      · intro ⟨i, m, hij, hgeti, hfpi⟩
        rw [get?_snoc_lt (by omega)] at hgeti
        exact (h.loopiff j n hgo).mpr ⟨i, m, hij, hgeti, hfpi⟩
    · subst hnx hj
      constructor
      · intro _
        exact ⟨i0, n0, hi0, by rw [get?_snoc_lt hi0]; exact hget0, hfp0⟩
      · intro _
        rfl
  · intro j n hget hl
    rw [hn] at hget ⊢
    rcases get?_snoc_cases hget with ⟨hj, hgo⟩ | ⟨hj, hnx⟩
    · obtain ⟨i, m, hij, hgeti, hfpi, hnli, hfirsti, hlinki⟩ :=
        h.looplink j n hgo hl
      refine ⟨i, m, hij, by rw [get?_snoc_lt (get?_lt hgeti)]; exact hgeti,
        hfpi, hnli, ?_, hlinki⟩
      intro k m' hk hgetk
      rw [get?_snoc_lt (by have := get?_lt hgeti; omega)] at hgetk
      exact hfirsti k m' hk hgetk
    · subst hnx hj
      refine ⟨i0, n0, hi0, by rw [get?_snoc_lt hi0]; exact hget0, hfp0, hnl0,
        ?_, ?_⟩
      · intro k m' hk hgetk
        rw [get?_snoc_lt (by omega)] at hgetk
        exact hfirst0 k m' hk hgetk
      · show some fid = some (base + i0)
        rw [hid0]
  · intro f hf p hp
    rw [hn]
    exact exists_nonloop_snoc (h.stackpar f (hstk f hf) p hp)
  · intro j n hget p hp
    rw [hn] at hget ⊢
    rcases get?_snoc_cases hget with ⟨hj, hgo⟩ | ⟨hj, hnx⟩
    · exact exists_nonloop_snoc (h.nodespar j n hgo p hp)
    · subst hnx
      exact exists_nonloop_snoc (hpar p hp)

theorem LoopInv.insert_fresh (base : Nat) {st : LoopState} (h : LoopInv base st)
    (frame : Frame) (transcript : String)
    (hfid : lookupFp st.visited (fingerprintPrompt transcript) = none)
    (hpar : ∀ p, frame.parentId = some p →
      p < base ∨ ∃ i n, st.nodes.get? i = some n ∧ p = base + i ∧ n.isLoop = false)
    {st' : LoopState}
    (hv : st'.visited =
      (fingerprintPrompt transcript, base + st.nodes.length) :: st.visited)
    (hn : st'.nodes = st.nodes ++ [mkNode frame transcript none])
    (hstk : ∀ f ∈ st'.stack, (f ∈ st.stack ∨ f = frame) ∨
      f.parentId = some (base + st.nodes.length)) : LoopInv base st' := by
  have hfresh : ∀ k m, st.nodes.get? k = some m →
      m.fingerprint ≠ fingerprintPrompt transcript := by
    intro k m hget heq
    exact h.vcomplete k m hget (by rw [heq]; exact hfid)
  refine ⟨?_, ?_, ?_, ?_, ?_, ?_⟩
  · intro fp id hid
    rw [hv, lookupFp_cons] at hid
    by_cases hfp : fingerprintPrompt transcript = fp
    · rw [if_pos hfp] at hid
      refine ⟨st.nodes.length, mkNode frame transcript none, ?_,
        (Option.some.inj hid).symm, by rw [← hfp]; rfl, rfl, ?_⟩
      · rw [hn, get?_snoc_len]
      · intro k m hk hgetk
        rw [hn, get?_snoc_lt hk] at hgetk
        rw [← hfp]
        exact hfresh k m hgetk
    · rw [if_neg hfp] at hid
      obtain ⟨i, n, hget, hide, hfpn, hnl, hfirst⟩ := h.vsound fp id hid
      refine ⟨i, n, by rw [hn, get?_snoc_lt (get?_lt hget)]; exact hget, hide,
        hfpn, hnl, ?_⟩
      intro k m hk hgetk
      rw [hn, get?_snoc_lt (by have := get?_lt hget; omega)] at hgetk
      exact hfirst k m hk hgetk
  · intro i n hget
    rw [hn] at hget
    rw [hv, lookupFp_cons]
    rcases get?_snoc_cases hget with ⟨hi, hgo⟩ | ⟨hi, hnx⟩
    · by_cases hfp : fingerprintPrompt transcript = n.fingerprint
      · rw [if_pos hfp]
        exact Option.noConfusion
      · rw [if_neg hfp]
        exact h.vcomplete i n hgo
    · subst hnx
      show (if fingerprintPrompt transcript = fingerprintPrompt transcript then
          some (base + st.nodes.length)
        else lookupFp st.visited (fingerprintPrompt transcript)) ≠ none
      rw [if_pos rfl]
      exact Option.noConfusion
  · intro j n hget
    rw [hn] at hget ⊢
    rcases get?_snoc_cases hget with ⟨hj, hgo⟩ | ⟨hj, hnx⟩
    · constructor
      · intro hl
        obtain ⟨i, m, hij, hgeti, hfpi⟩ := (h.loopiff j n hgo).mp hl
        exact ⟨i, m, hij, by rw [get?_snoc_lt (get?_lt hgeti)]; exact hgeti, hfpi⟩
      · intro ⟨i, m, hij, hgeti, hfpi⟩
        rw [get?_snoc_lt (by omega)] at hgeti
        exact (h.loopiff j n hgo).mpr ⟨i, m, hij, hgeti, hfpi⟩
    · subst hnx hj
      constructor
      · intro hab
        exact absurd hab (by exact Bool.false_ne_true)
      · intro ⟨i, m, hij, hgeti, hfpi⟩
        rw [get?_snoc_lt (by omega)] at hgeti
        exact absurd hfpi (hfresh i m hgeti)
  · intro j n hget hl
    rw [hn] at hget ⊢
    rcases get?_snoc_cases hget with ⟨hj, hgo⟩ | ⟨hj, hnx⟩
    · obtain ⟨i, m, hij, hgeti, hfpi, hnli, hfirsti, hlinki⟩ :=
        h.looplink j n hgo hl
      refine ⟨i, m, hij, by rw [get?_snoc_lt (get?_lt hgeti)]; exact hgeti,
        hfpi, hnli, ?_, hlinki⟩
      intro k m' hk hgetk
      rw [get?_snoc_lt (by have := get?_lt hgeti; omega)] at hgetk
      exact hfirsti k m' hk hgetk
    · subst hnx
      exact absurd hl (by exact Bool.false_ne_true)
  · intro f hf p hp
    rw [hn]
    rcases hstk f hf with hmem | hnew
    · rcases hmem with hmem | hfr
      · exact exists_nonloop_snoc (h.stackpar f hmem p hp)
      · subst hfr
        exact exists_nonloop_snoc (hpar p hp)
    · rw [hnew] at hp
      refine Or.inr ⟨st.nodes.length, mkNode frame transcript none,
        get?_snoc_len _ _, (Option.some.inj hp).symm, rfl⟩
  · intro j n hget p hp
    rw [hn] at hget ⊢
    rcases get?_snoc_cases hget with ⟨hj, hgo⟩ | ⟨hj, hnx⟩
    · exact exists_nonloop_snoc (h.nodespar j n hgo p hp)
    · subst hnx
      exact exists_nonloop_snoc (hpar p hp)

theorem runLoop_inv (ep : String) (it bu : Option String)
    (oracle : List String → Except String String) (base : Nat) :
    ∀ (fuel : Nat) (st : LoopState), LoopInv base st →
      LoopInv base (runLoop ep it bu oracle base fuel st).1 := by
  intro fuel
  induction fuel with
  | zero =>
    intro st h
    rw [runLoop]
    cases hs : st.stack with
    | nil => exact h
    | cons f r => exact h
  | succ fuel ih =>
    intro st h
    rw [runLoop]
    cases hs : st.stack with
    | nil => exact h
    | cons frame rest =>
      dsimp only
      have hframe : frame ∈ st.stack := by
        rw [hs]; exact List.mem_cons_self _ _
      have hrest : ∀ f ∈ rest, f ∈ st.stack := fun f hf => by
        rw [hs]; exact List.mem_cons_of_mem _ hf
      have hparf : ∀ p, frame.parentId = some p →
          p < base ∨ ∃ i n, st.nodes.get? i = some n ∧ p = base + i ∧
            n.isLoop = false :=
        fun p hp => h.stackpar frame hframe p hp
      by_cases hd : frame.depth > maxDepth
      · rw [if_pos hd]
        exact ih _ (h.mono base rfl rfl hrest)
      · rw [if_neg hd]
        cases hcs : createTelephonySession ep it bu with
        | error msg => exact h.mono base rfl rfl hrest
        | ok k =>
          dsimp only
          cases ho : oracle frame.path with
          | error msg => exact h.mono base rfl rfl hrest
          | ok transcript =>
            dsimp only
            cases hfid : lookupFp st.visited (fingerprintPrompt transcript) with
            | some fid =>
              dsimp only
              exact ih _ (h.insert_loop base frame transcript fid hfid hparf
                rfl rfl hrest)
            | none =>
              dsimp only
              by_cases hop : (extractMenuOptions transcript).length > 0
              · rw [if_pos hop]
                refine ih _ (h.insert_fresh base frame transcript hfid hparf
                  rfl rfl ?_)
                intro f hf
                rcases List.mem_append.mp hf with hc | hr
                · rcases List.mem_map.mp hc with ⟨o, ho', hfo⟩
                  rw [← hfo]
                  exact Or.inr rfl
                · exact Or.inl (Or.inl (hrest f hr))
              · rw [if_neg hop]
                by_cases hni : needsInput transcript (extractMenuOptions transcript) = true
                · rw [if_pos hni]
                  refine h.insert_fresh base frame transcript hfid hparf
                    rfl rfl ?_
                  intro f hf
                  rcases List.mem_cons.mp hf with hfr | hr
                  · exact Or.inl (Or.inr hfr)
                  · exact Or.inl (Or.inl (hrest f hr))
                · rw [if_neg hni]
                  exact ih _ (h.insert_fresh base frame transcript hfid hparf
                    rfl rfl (fun f hf => Or.inl (Or.inl (hrest f hf))))

theorem loopInv_init (base : Nat) (stk : List Frame)
    (hpar : ∀ f ∈ stk, ∀ p, f.parentId = some p → p < base) :
    LoopInv base
      { stack := stk, visited := [], nodes := [], nodesDiscovered := 0,
        loopsDetected := 0, maxDepthReached := 0 } := by
  refine ⟨?_, ?_, ?_, ?_, ?_, ?_⟩
  · intro fp id hid
    exact Option.noConfusion hid
  · intro i n hget
    exact Option.noConfusion hget
  · intro j n hget
    exact Option.noConfusion hget
  · intro j n hget
    exact Option.noConfusion hget
  · intro f hf p hp
    exact Or.inl (hpar f hf p hp)
  · intro j n hget
    exact Option.noConfusion hget

/-- C2 (confirmed): within one invocation of the traversal loop (started on
any stack whose frames point only at pre-existing nodes, ids below the store
cursor base), whenever a node is persisted with the same fingerprint as an
earlier-persisted node, it is written with isLoop = true and linkedNodeId
equal to the id of the first-persisted node carrying that fingerprint (itself
a non-loop node), and its branch is abandoned: no persisted node and no
remaining frame has it as parent. -/
theorem c2_loop_detection (ep : String) (it bu : Option String)
    (oracle : List String → Except String String) (base fuel : Nat)
    (stk : List Frame)
    (hpar : ∀ f ∈ stk, ∀ p, f.parentId = some p → p < base)
    (i j : Nat) (ni nj : IvrNode)
    (hi : (runLoop ep it bu oracle base fuel
        { stack := stk, visited := [], nodes := [], nodesDiscovered := 0,
          loopsDetected := 0, maxDepthReached := 0 }).1.nodes.get? i = some ni)
    (hj : (runLoop ep it bu oracle base fuel
        { stack := stk, visited := [], nodes := [], nodesDiscovered := 0,
          loopsDetected := 0, maxDepthReached := 0 }).1.nodes.get? j = some nj)
    (hij : i < j) (hfp : ni.fingerprint = nj.fingerprint) :
    nj.isLoop = true ∧
    (∃ k nk, k < j ∧
      (runLoop ep it bu oracle base fuel
        { stack := stk, visited := [], nodes := [], nodesDiscovered := 0,
          loopsDetected := 0, maxDepthReached := 0 }).1.nodes.get? k = some nk ∧
      nk.fingerprint = nj.fingerprint ∧ nk.isLoop = false ∧
      (∀ m nm, m < k →
        (runLoop ep it bu oracle base fuel
          { stack := stk, visited := [], nodes := [], nodesDiscovered := 0,
            loopsDetected := 0, maxDepthReached := 0 }).1.nodes.get? m = some nm →
        nm.fingerprint ≠ nj.fingerprint) ∧
      nj.linkedNodeId = some (base + k)) ∧
    (∀ m nm,
      (runLoop ep it bu oracle base fuel
        { stack := stk, visited := [], nodes := [], nodesDiscovered := 0,
          loopsDetected := 0, maxDepthReached := 0 }).1.nodes.get? m = some nm →
      nm.parentId ≠ some (base + j)) ∧
    (∀ f ∈ (runLoop ep it bu oracle base fuel
        { stack := stk, visited := [], nodes := [], nodesDiscovered := 0,
          loopsDetected := 0, maxDepthReached := 0 }).1.stack,
      f.parentId ≠ some (base + j)) := by
  have hinv := runLoop_inv ep it bu oracle base fuel _ (loopInv_init base stk hpar)
  have hloop : nj.isLoop = true :=
    (hinv.loopiff j nj hj).mpr ⟨i, ni, hij, hi, hfp⟩
  refine ⟨hloop, hinv.looplink j nj hj hloop, ?_, ?_⟩
  · intro m nm hm hpm
    rcases hinv.nodespar m nm hm _ hpm with hlt | ⟨i', n', hget', heq', hnl'⟩
    · omega
    · have hji : j = i' := by omega
      subst hji
      rw [hget'] at hj
      rw [Option.some.inj hj] at hnl'
      rw [hloop] at hnl'
      exact Bool.noConfusion hnl'
  · intro f hf hpf
    rcases hinv.stackpar f hf _ hpf with hlt | ⟨i', n', hget', heq', hnl'⟩
    · omega
    · have hji : j = i' := by omega
      subst hji
      rw [hget'] at hj
      rw [Option.some.inj hj] at hnl'
      rw [hloop] at hnl'
      exact Bool.noConfusion hnl'

/-- C2 witness: a backend whose two depth-1 menus read the same transcript;
the third persisted node is flagged as a loop. -/
theorem c2_loop_detection_witness :
    ∃ n, c2Nodes.get? 2 = some n ∧ n.isLoop = true := by
  have h := c2_loop_detection "+15551234567" none (some "http://localhost:3000")
    c2Oracle 0 10 [{ path := [], parentId := none, depth := 0 }]
    (by
      intro f hf p hp
      rw [List.mem_singleton.mp hf] at hp
      exact Option.noConfusion hp)
    1 2 ((c2Nodes.get? 1).getD default) ((c2Nodes.get? 2).getD default)
    (by decide) (by decide) (by decide) (by decide)
  exact ⟨(c2Nodes.get? 2).getD default, by decide, h.1⟩

theorem finishRun_terminal (bu : Option String) (job : DiscoveryJob)
    (project : Project) (now : Nat) (pr : LoopState × RunOutcome) :
    ((finishRun bu job project now pr).outcome = RunOutcome.completed →
      (finishRun bu job project now pr).job.status = "completed") ∧
    (∀ msg, (finishRun bu job project now pr).outcome = RunOutcome.errored msg →
      (finishRun bu job project now pr).job.status = "failed" ∧
      (finishRun bu job project now pr).job.platform = some "Unknown" ∧
      ("Critical Failure: " ++ msg, "error") ∈ (finishRun bu job project now pr).logs) ∧
    ((finishRun bu job project now pr).outcome = RunOutcome.suspended →
      (finishRun bu job project now pr).job.status = "waiting_for_input") ∧
    ((finishRun bu job project now pr).outcome ≠ RunOutcome.outOfFuel →
      (finishRun bu job project now pr).outcome ≠ RunOutcome.suspended →
      (finishRun bu job project now pr).job.status = "completed" ∨
      (finishRun bu job project now pr).job.status = "failed") := by
  rcases pr with ⟨st, oc⟩
  cases oc with
  | completed =>
    exact ⟨fun _ => rfl, fun msg h => RunOutcome.noConfusion h,
      fun h => RunOutcome.noConfusion h, fun _ _ => Or.inl rfl⟩
  | suspended =>
    exact ⟨fun h => RunOutcome.noConfusion h, fun msg h => RunOutcome.noConfusion h,
      fun _ => rfl, fun _ h2 => absurd rfl h2⟩
  | errored msg0 =>
    refine ⟨fun h => RunOutcome.noConfusion h, fun msg h => ?_,
      fun h => RunOutcome.noConfusion h, fun _ _ => Or.inr rfl⟩
    injection h with h'
    subst h'
    exact ⟨rfl, rfl, List.mem_singleton.mpr rfl⟩
  | outOfFuel =>
    exact ⟨fun h => RunOutcome.noConfusion h, fun msg h => RunOutcome.noConfusion h,
      fun h => RunOutcome.noConfusion h, fun h1 _ => absurd rfl h1⟩

/-- C9 (confirmed): every invocation that does not run out of model fuel ends
with the job completed, failed, or waiting_for_input; an error anywhere inside
the action is caught at the top, logged as a Critical Failure with its
message, and marks the job failed with platform "Unknown"; in particular a
non-suspending invocation never leaves the job running. -/
theorem c9_terminal_states (bu : Option String)
    (oracle : List String → Except String String) (base fuel : Nat)
    (args : RunArgs) (job : DiscoveryJob) (project : Project) (now : Nat) :
    ((runDiscoveryModel bu oracle base fuel args job project now).outcome = RunOutcome.completed →
      (runDiscoveryModel bu oracle base fuel args job project now).job.status = "completed") ∧
    (∀ msg,
      (runDiscoveryModel bu oracle base fuel args job project now).outcome = RunOutcome.errored msg →
      (runDiscoveryModel bu oracle base fuel args job project now).job.status = "failed" ∧
      (runDiscoveryModel bu oracle base fuel args job project now).job.platform = some "Unknown" ∧
      ("Critical Failure: " ++ msg, "error") ∈
        (runDiscoveryModel bu oracle base fuel args job project now).logs) ∧
    ((runDiscoveryModel bu oracle base fuel args job project now).outcome = RunOutcome.suspended →
      (runDiscoveryModel bu oracle base fuel args job project now).job.status = "waiting_for_input") ∧
    ((runDiscoveryModel bu oracle base fuel args job project now).outcome ≠ RunOutcome.outOfFuel →
      (runDiscoveryModel bu oracle base fuel args job project now).outcome ≠ RunOutcome.suspended →
      (runDiscoveryModel bu oracle base fuel args job project now).job.status = "completed" ∨
      (runDiscoveryModel bu oracle base fuel args job project now).job.status = "failed") := by
  unfold runDiscoveryModel
  cases hpre : preflightError args.inputType bu with
  | some msg0 =>
    dsimp only
    refine ⟨fun h => RunOutcome.noConfusion h, fun msg h => ?_,
      fun h => RunOutcome.noConfusion h, fun _ _ => Or.inr rfl⟩
    injection h with h'
    subst h'
    exact ⟨rfl, rfl, List.mem_singleton.mpr rfl⟩
  | none =>
    dsimp only
    exact finishRun_terminal bu job project now _

/-- C9 witness: a dial failure on a simulated-mode run. -/
theorem c9_terminal_states_witness :
    c9FailRun.job.status = "failed" ∧ c9FailRun.job.platform = some "Unknown" ∧
    ("Critical Failure: " ++ "boom", "error") ∈ c9FailRun.logs :=
  (c9_terminal_states none (fun _ => .error "boom") 0 5
    { entryPoint := "x", inputType := some "simulated", resumeInput := none,
      resumeStack := none }
    (createJob 0 "x" (some "simulated") 0) demoProject 3).2.1 "boom" (by decide)

theorem finishRun_project (bu : Option String) (job : DiscoveryJob)
    (project : Project) (now : Nat) (pr : LoopState × RunOutcome) :
    (∀ msg, (finishRun bu job project now pr).outcome = RunOutcome.errored msg →
      (finishRun bu job project now pr).project =
        { project with platform := some "Unknown" }) ∧
    ((finishRun bu job project now pr).outcome = RunOutcome.completed →
      (finishRun bu job project now pr).project =
        { project with platform := some (completionPlatform bu) }) := by
  rcases pr with ⟨st, oc⟩
  cases oc with
  | completed => exact ⟨fun msg h => RunOutcome.noConfusion h, fun _ => rfl⟩
  | suspended =>
    exact ⟨fun msg h => RunOutcome.noConfusion h, fun h => RunOutcome.noConfusion h⟩
  | errored msg0 => exact ⟨fun msg _ => rfl, fun h => RunOutcome.noConfusion h⟩
  | outOfFuel =>
    exact ⟨fun msg h => RunOutcome.noConfusion h, fun h => RunOutcome.noConfusion h⟩

/-- C10 (confirmed): completeJob patches the owning project's platform to the
platform passed for the job and touches no other project field; since the
failure path calls it with platform "Unknown", a failed run overwrites any
previously detected project platform with "Unknown", and a completed run
overwrites it with the completion platform. -/
theorem c10_complete_job_project_patch :
    (∀ (p s : String) (a : Option Unit) (now : Nat) (job : DiscoveryJob)
        (project : Project),
      (completeJob p s a now job project).2.platform = some p ∧
      (completeJob p s a now job project).2.name = project.name ∧
      (completeJob p s a now job project).2.description = project.description ∧
      (completeJob p s a now job project).2.type = project.type ∧
      (completeJob p s a now job project).2.status = project.status ∧
      (completeJob p s a now job project).2.createdBy = project.createdBy) ∧
    (∀ (bu : Option String) (oracle : List String → Except String String)
        (base fuel : Nat) (args : RunArgs) (job : DiscoveryJob)
        (project : Project) (now : Nat) (msg : String),
      (runDiscoveryModel bu oracle base fuel args job project now).outcome =
        RunOutcome.errored msg →
      (runDiscoveryModel bu oracle base fuel args job project now).project =
        { project with platform := some "Unknown" }) ∧
    (∀ (bu : Option String) (oracle : List String → Except String String)
        (base fuel : Nat) (args : RunArgs) (job : DiscoveryJob)
        (project : Project) (now : Nat),
      (runDiscoveryModel bu oracle base fuel args job project now).outcome =
        RunOutcome.completed →
      (runDiscoveryModel bu oracle base fuel args job project now).project =
        { project with platform := some (completionPlatform bu) }) := by
  refine ⟨fun p s a now job project => ⟨rfl, rfl, rfl, rfl, rfl, rfl⟩, ?_, ?_⟩
  · intro bu oracle base fuel args job project now msg
    unfold runDiscoveryModel
    cases hpre : preflightError args.inputType bu with
    | some msg0 => intro _; rfl
    | none =>
      dsimp only
      exact (finishRun_project bu job project now _).1 msg
  · intro bu oracle base fuel args job project now
    unfold runDiscoveryModel
    cases hpre : preflightError args.inputType bu with
    | some msg0 =>
      dsimp only
      intro h
      exact RunOutcome.noConfusion h
    | none =>
      dsimp only
      exact (finishRun_project bu job project now _).2

/-- C10 witness: a direct completeJob call and a failed run's project patch. -/
theorem c10_complete_job_project_patch_witness :
    (completeJob "Genesys" "completed" none 7 (createJob 0 "z" none 0)
        demoProject).2.platform = some "Genesys" ∧
    c10FailRun.project = { demoProject with platform := some "Unknown" } :=
  ⟨(c10_complete_job_project_patch.1 "Genesys" "completed" none 7
      (createJob 0 "z" none 0) demoProject).1,
   c10_complete_job_project_patch.2.1 none (fun _ => .error "dial failed") 0 5
     { entryPoint := "y", inputType := some "simulated", resumeInput := none,
       resumeStack := none }
     (createJob 1 "y" (some "simulated") 0) demoProject 6 "dial failed"
     (by decide)⟩

/-- C8 (confirmed): the factory returns a Simulated session exactly for
input-types "text" and "simulated"; for every other input-type it returns a
Real session when a backend URL is configured and a configuration error when
none is; and in a run requiring real calling with no backend configured, the
configuration error is raised by the preflight check before any frame is
processed, so the run fails with no node persisted. -/
theorem c8_factory_selection :
    (∀ (ep : String) (it bu : Option String),
      createTelephonySession ep it bu = .ok .simulated ↔
        (it = some "text" ∨ it = some "simulated")) ∧
    (∀ (ep : String) (it bu : Option String),
      ¬(it = some "text" ∨ it = some "simulated") → isConfigured bu = true →
      createTelephonySession ep it bu = .ok .real) ∧
    (∀ (ep : String) (it bu : Option String),
      ¬(it = some "text" ∨ it = some "simulated") → isConfigured bu = false →
      createTelephonySession ep it bu =
        .error "TELEPHONY_BACKEND_URL is not configured for RealTelephonySession") ∧
    (∀ (bu : Option String) (oracle : List String → Except String String)
        (base fuel : Nat) (args : RunArgs) (job : DiscoveryJob)
        (project : Project) (now : Nat),
      ¬(args.inputType = some "text" ∨ args.inputType = some "simulated") →
      isConfigured bu = false →
      (runDiscoveryModel bu oracle base fuel args job project now).state.nodes = [] ∧
      (runDiscoveryModel bu oracle base fuel args job project now).outcome =
        RunOutcome.errored
          "TELEPHONY_BACKEND_URL is missing. Please set it in the Convex Dashboard." ∧
      (runDiscoveryModel bu oracle base fuel args job project now).job.status = "failed") := by
  have hcondF : ∀ (it : Option String), ¬(it = some "text" ∨ it = some "simulated") →
      (decide (it = some "text") || decide (it = some "simulated")) = false := by
    intro it hno
    obtain ⟨h1, h2⟩ := not_or.mp hno
    simp [h1, h2]
  refine ⟨?_, ?_, ?_, ?_⟩
  · intro ep it bu
    constructor
    · intro hok
      by_contra hno
      unfold createTelephonySession at hok
      rw [if_neg (by rw [hcondF it hno]; exact Bool.false_ne_true)] at hok
      dsimp only at hok
      split at hok <;> split at hok <;> simp_all
    · intro h
      unfold createTelephonySession
      have hc : (decide (it = some "text") || decide (it = some "simulated")) = true := by
        rcases h with h | h <;> simp [h]
      rw [if_pos hc]
  · intro ep it bu hno hcfg
    unfold createTelephonySession
    rw [if_neg (by rw [hcondF it hno]; exact Bool.false_ne_true)]
    dsimp only
    split <;> simp_all
  · intro ep it bu hno hcfg
    unfold createTelephonySession
    rw [if_neg (by rw [hcondF it hno]; exact Bool.false_ne_true)]
    dsimp only
    split <;> simp_all
  · intro bu oracle base fuel args job project now hno hcfg
    have hpre : preflightError args.inputType bu =
        some "TELEPHONY_BACKEND_URL is missing. Please set it in the Convex Dashboard." := by
      unfold preflightError
      obtain ⟨h1, h2⟩ := not_or.mp hno
      rw [if_pos ⟨h2, h1⟩, if_pos (by rw [hcfg]; rfl)]
    unfold runDiscoveryModel
    rw [hpre]
    exact ⟨rfl, rfl, rfl⟩

/-- C8 witness: an unset backend URL with input-type unset. -/
theorem c8_factory_selection_witness :
    createTelephonySession "+15551234567" none none =
      .error "TELEPHONY_BACKEND_URL is not configured for RealTelephonySession" ∧
    c8FailRun.state.nodes = [] ∧ c8FailRun.job.status = "failed" :=
  ⟨c8_factory_selection.2.2.1 "+15551234567" none none (by simp) rfl,
   (c8_factory_selection.2.2.2 none (fun _ => .ok "unused") 0 5
     { entryPoint := "+15551234567", inputType := none, resumeInput := none,
       resumeStack := none }
     (createJob 0 "+15551234567" none 0) demoProject 4 (by simp) rfl).1,
   (c8_factory_selection.2.2.2 none (fun _ => .ok "unused") 0 5
     { entryPoint := "+15551234567", inputType := none, resumeInput := none,
       resumeStack := none }
     (createJob 0 "+15551234567" none 0) demoProject 4 (by simp) rfl).2.2⟩

end CxNavigator
